import Mathlib

/-!
Shallow embedding of the signal-routing engine of the node-modular repository:
the `AudioNodeManager` of `src/utils/signalTypes.ts` (node registry, edge
resolution, CV range scaling, gate trigger subscription), the trigger fan-out
lists of `SequencerNode` and `KeyboardNode`, and the edge-deletion handler of
`src/components/NodeEditor.tsx` — together with proofs of the routing
properties stated in the specification.
-/

namespace NodeModular

/-- One dynamic property of a Tone audio node, as probed by
`AudioNodeManager.connect` (`targetNode[targetProperty]`). `hasConnect` models
`typeof prop.connect === 'function'`, `isSignal` models
`prop instanceof Tone.Signal`, and `throwsOnConnect` models a malformed
parameter object for which the underlying connect call throws. -/
structure ParamSpec where
  hasConnect : Bool
  isSignal : Bool
  throwsOnConnect : Bool
  deriving DecidableEq, Repr

/-- The slice of a Tone audio-node unit that the routing engine touches:
the optional `connectTrigger` capability together with its
`connectedTriggers` fan-out list, the dynamically accessed named properties,
and the `input` port. -/
structure ToneAudioNode where
  hasConnectTrigger : Bool
  triggers : List String
  params : List (String × ParamSpec)
  inputPort : Option ParamSpec
  deriving DecidableEq, Repr

/-- `edge.data` as produced by `NodeEditor.onConnect`. -/
structure EdgeData where
  targetProperty : Option String
  sourceProperty : Option String
  deriving DecidableEq, Repr

/-- A react-flow edge as consumed by `AudioNodeManager.connect`. -/
structure Edge where
  id : String
  source : String
  target : String
  sourceHandle : Option String
  targetHandle : Option String
  data : Option EdgeData
  deriving DecidableEq, Repr

def Edge.targetProp (e : Edge) : Option String :=
  e.data.bind (fun d => d.targetProperty)

def Edge.sourceProp (e : Edge) : Option String :=
  e.data.bind (fun d => d.sourceProperty)

/-- A signal-processing stage of an installed connection: either a direct
patch, or the Tone.Scale stage built for a declared parameter range. -/
inductive Stage where
  | direct
  | scaled (mn mx : Rat)
  deriving DecidableEq, Repr

/-- Modelled from the spec: the Range Scaler contract (§4.3), realised by the
external Tone.Scale library — a linear map sending a normalized [0,1] input
onto [min,max]; a direct connection passes its input through unchanged. -/
def Stage.apply : Stage → Rat → Rat
  | Stage.direct, x => x
  | Stage.scaled mn mx, x => mn + x * (mx - mn)

/-- Where an installed continuous connection ends. -/
inductive ConnTarget where
  | param (node : String) (prop : String)
  | inputPort (node : String)
  | wholeNode (node : String)
  | destination
  deriving DecidableEq, Repr

/-- A live continuous-signal connection, tagged with the edge that produced
it (`none` for the fixed `toDestination` hookup). -/
structure Conn where
  edgeId : Option String
  source : String
  dest : ConnTarget
  stage : Stage
  deriving DecidableEq, Repr

/-- Association-list rendering of a JS `Map` lookup. -/
def assocGet {α : Type} (m : List (String × α)) (k : String) : Option α :=
  (m.find? (fun p => p.1 == k)).map (fun p => p.2)

/-- Association-list rendering of a JS `Map.set`: replace in place, or append. -/
def assocSet {α : Type} : List (String × α) → String → α → List (String × α)
  | [], k, v => [(k, v)]
  | (a, b) :: tl, k, v =>
    if a == k then (k, v) :: tl else (a, b) :: assocSet tl k v

/-- Association-list rendering of a JS `Map.delete`. -/
def assocRemove {α : Type} (m : List (String × α)) (k : String) :
    List (String × α) :=
  m.filter (fun p => !(p.1 == k))

/-- The mutable state of the `AudioNodeManager` singleton, plus the list of
live connections and the record of disposed units (so that disposal and
disconnection are observable). -/
structure ManagerState where
  audioNodes : List (String × ToneAudioNode)
  nodeParams : List (String × List (String × Rat × Rat))
  conns : List Conn
  disposed : List String
  deriving DecidableEq, Repr

/-- JS `handleId.split('-')`: split a string at every dash, keeping empty
components. -/
def splitDashAux : List Char → List Char → List String
  | [], acc => [String.mk acc.reverse]
  | c :: cs, acc =>
    if c = '-' then String.mk acc.reverse :: splitDashAux cs []
    else splitDashAux cs (c :: acc)

/-- JS `s.split('-')`. -/
def splitDash (s : String) : List String := splitDashAux s.data []

/-- `getSignalType` as defined inline in `AudioNodeManager.connect`: the last
`-`-separated component of the handle id, or null for a missing, empty, or
empty-tailed handle id. -/
def getSignalType (handleId : Option String) : Option String :=
  match handleId with
  | none => none
  | some s =>
    if s = "" then none
    else
      match (splitDash s).getLast? with
      | none => none
      | some last => if last = "" then none else some last

/-- Outcome of resolving one edge, mirroring the log/return paths of
`AudioNodeManager.connect`. -/
inductive Outcome where
  | skippedMissing
  | wiredTrigger
  | wiredConn (c : Conn)
  | warned (msg : String)
  | errorLogged (msg : String)
  deriving DecidableEq, Repr

/-- Install one continuous connection (an underlying connect call that
cannot throw, such as node-to-node wiring). -/
def installConn (st : ManagerState) (c : Conn) : ManagerState × Outcome :=
  ({ st with conns := st.conns ++ [c] }, Outcome.wiredConn c)

/-- Resolution result: the caught-exception side carries the state as mutated
up to the throw, matching TS exception semantics. -/
abbrev ConnectResult := Except (ManagerState × String) (ManagerState × Outcome)

/-- Wiring a chain into a dynamic parameter object: a `connect(...)` call that
throws on a malformed parameter (`throwsOnConnect`). -/
def attemptInto (p : ParamSpec) (st : ManagerState) (c : Conn) : ConnectResult :=
  if p.throwsOnConnect then Except.error (st, "Error connecting audio nodes")
  else Except.ok (installConn st c)

/-- The inner `try { scale.connect(targetProp) } catch { sourceNode.connect(targetProp) }`
of the CV-with-range branch: on a caught failure the code falls back to a
direct connection into the same parameter, which throws in turn. -/
def attemptWithFallback (p : ParamSpec) (st : ManagerState) (c c2 : Conn) :
    ConnectResult :=
  match attemptInto p st c with
  | Except.ok r => Except.ok r
  | Except.error _ => attemptInto p st c2

/-- Connection from `e.source` into the named parameter of `e.target`. -/
def paramConn (e : Edge) (prop : String) (stage : Stage) : Conn :=
  { edgeId := some e.id, source := e.source,
    dest := ConnTarget.param e.target prop, stage := stage }

/-- Connection from `e.source` into the `input` port of `e.target`. -/
def inputConn (e : Edge) : Conn :=
  { edgeId := some e.id, source := e.source,
    dest := ConnTarget.inputPort e.target, stage := Stage.direct }

/-- Connection from `e.source` into the whole `e.target` node. -/
def nodeConn (e : Edge) : Conn :=
  { edgeId := some e.id, source := e.source,
    dest := ConnTarget.wholeNode e.target, stage := Stage.direct }

/-- `connectTrigger` as implemented identically by `SequencerNode` and
`KeyboardNode`: push the target onto `connectedTriggers` unless already
present. -/
def ToneAudioNode.connectTrigger (u : ToneAudioNode) (target : String) :
    ToneAudioNode :=
  { u with triggers :=
      if target ∈ u.triggers then u.triggers else u.triggers ++ [target] }

/-- The `targetType === 'gate'` branch of `AudioNodeManager.connect`. -/
def gateCase (st : ManagerState) (e : Edge) (sourceNode : ToneAudioNode) :
    ConnectResult :=
  if sourceNode.hasConnectTrigger then
    Except.ok
      ({ st with audioNodes :=
          assocSet st.audioNodes e.source (sourceNode.connectTrigger e.target) },
       Outcome.wiredTrigger)
  else Except.ok (st, Outcome.warned "Source node does not support connectTrigger")

/-- The `targetType === 'note' || targetType === 'cv'` branch of
`AudioNodeManager.connect`. The side effects on UI flags
(`setCVInputConnected` / `setNoteInputConnected`) are omitted: they touch no
routing state. A chain `source → Scale(min,max) → parameter` is modelled as a
single connection with a `scaled` stage; a half-built chain whose scaler was
never connected onward carries no signal and is not recorded. -/
def noteCvCase (st : ManagerState) (e : Edge) (targetNode : ToneAudioNode)
    (targetType targetProperty sourceProperty : Option String) : ConnectResult :=
  if sourceProperty = some "output" then
    if targetType = some "cv" then
      match targetProperty with
      | none =>
        Except.ok (st, Outcome.warned "No target property specified for CV (output) connection")
      | some p =>
        match assocGet targetNode.params p with
        | some prop =>
          match (assocGet st.nodeParams e.target).bind (fun ps => assocGet ps p) with
          | some (mn, mx) =>
            if prop.hasConnect then
              attemptInto prop st (paramConn e p (Stage.scaled mn mx))
            else if prop.isSignal then
              attemptInto prop st (paramConn e p (Stage.scaled mn mx))
            else
              attemptWithFallback prop st (paramConn e p (Stage.scaled mn mx))
                (paramConn e p Stage.direct)
          | none =>
            if prop.hasConnect then
              attemptInto prop st (paramConn e p Stage.direct)
            else
              Except.ok (st, Outcome.warned
                ("Target property " ++ p ++ " does not have connect method"))
        | none => Except.ok (installConn st (nodeConn e))
    else Except.ok (st, Outcome.warned "Note signal cannot connect to output property")
  else
    match targetProperty with
    | none =>
      Except.ok (st, Outcome.warned "No target property specified for CV/Note connection")
    | some p =>
      if p = "input" then
        match targetNode.inputPort with
        | some ip =>
          if ip.hasConnect then attemptInto ip st (inputConn e)
          else Except.ok (installConn st (nodeConn e))
        | none => Except.ok (installConn st (nodeConn e))
      else
        match assocGet targetNode.params p with
        | some prm =>
          if prm.hasConnect then
            if targetType = some "note" then
              attemptInto prm st (paramConn e p Stage.direct)
            else
              match (assocGet st.nodeParams e.target).bind (fun ps => assocGet ps p) with
              | some (mn, mx) => attemptInto prm st (paramConn e p (Stage.scaled mn mx))
              | none => attemptInto prm st (paramConn e p Stage.direct)
          else
            Except.ok (st, Outcome.warned
              ("Target property " ++ p ++ " is not a valid AudioParam"))
        | none =>
          Except.ok (st, Outcome.warned
            ("Target property " ++ p ++ " is not a valid AudioParam"))

/-- The body of `AudioNodeManager.connect` before its surrounding
`try ... catch`. -/
def connectRaw (st : ManagerState) (e : Edge) : ConnectResult :=
  match assocGet st.audioNodes e.source, assocGet st.audioNodes e.target with
  | some sourceNode, some targetNode =>
    if getSignalType e.targetHandle = some "gate" then gateCase st e sourceNode
    else if getSignalType e.targetHandle = some "note" ∨
        getSignalType e.targetHandle = some "cv" then
      noteCvCase st e targetNode (getSignalType e.targetHandle) e.targetProp e.sourceProp
    else if getSignalType e.targetHandle = some "audio" then
      Except.ok (installConn st (nodeConn e))
    else Except.ok (st, Outcome.warned "Unknown signal type")
  | _, _ => Except.ok (st, Outcome.skippedMissing)

/-- `AudioNodeManager.connect`: the whole body runs inside `try ... catch`,
so a thrown wiring error is logged and never propagated to the caller. -/
def connect (st : ManagerState) (e : Edge) : ManagerState × Outcome :=
  match connectRaw st e with
  | Except.ok r => r
  | Except.error (st', msg) => (st', Outcome.errorLogged msg)

/-- The `relevantEdges.forEach((edge) => this.connect(edge))` loop. -/
def foldConnect : ManagerState → List Edge → ManagerState × List Outcome
  | st, [] => (st, [])
  | st, e :: rest =>
    let r := connect st e
    let rs := foldConnect r.1 rest
    (rs.1, r.2 :: rs.2)

/-- The filter selecting edges incident to a (re)registered node. -/
def relevantEdges (nodeId : String) (edges : List Edge) : List Edge :=
  edges.filter (fun e => e.source == nodeId || e.target == nodeId)

/-- The fixed `audioNode.toDestination()` hookup for the singleton sink. -/
def destinationConn (nodeId : String) : Conn :=
  { edgeId := none, source := nodeId, dest := ConnTarget.destination,
    stage := Stage.direct }

/-- The `if (params) { this.nodeParams.set(nodeId, params); }` step: the
parameter-range table is stored only when an argument was supplied. -/
def storeParams (st : ManagerState) (nodeId : String)
    (params : Option (List (String × Rat × Rat))) : ManagerState :=
  match params with
  | some ps => { st with nodeParams := assocSet st.nodeParams nodeId ps }
  | none => st

/-- `AudioNodeManager.registerAudioNode` of `signalTypes.ts`: store the
parameter ranges only when supplied, replace the unit wholesale without
disconnecting the previous one, re-resolve every incident edge, and hook the
singleton sink up to the destination. -/
def registerAudioNode (st : ManagerState) (nodeId : String)
    (audioNode : ToneAudioNode) (edges : List Edge)
    (params : Option (List (String × Rat × Rat))) : ManagerState × List Outcome :=
  let st1 := storeParams st nodeId params
  let st2 := { st1 with audioNodes := assocSet st1.audioNodes nodeId audioNode }
  let r := foldConnect st2 (relevantEdges nodeId edges)
  if nodeId = "toDestination" then
    ({ r.1 with conns := r.1.conns ++ [destinationConn nodeId] }, r.2)
  else r

/-- `AudioNodeManager.deleteAudioNode`: disconnect (drop all outgoing
connections), dispose, and remove the map entry. -/
def deleteAudioNode (st : ManagerState) (nodeId : String) : ManagerState :=
  match assocGet st.audioNodes nodeId with
  | some _ =>
    { st with
      conns := st.conns.filter (fun c => !(c.source == nodeId)),
      disposed := st.disposed ++ [nodeId],
      audioNodes := assocRemove st.audioNodes nodeId }
  | none => st

namespace NodeEditor

/-- `onEdgesDelete` of `NodeEditor.tsx`: for each deleted edge, fetch the
source unit and call its Tone `disconnect()`, which removes every continuous
connection originating at that unit and touches nothing else. -/
def onEdgesDelete (st : ManagerState) (edgesToDelete : List Edge) : ManagerState :=
  edgesToDelete.foldl
    (fun s e =>
      match assocGet s.audioNodes e.source with
      | some _ => { s with conns := s.conns.filter (fun c => !(c.source == e.source)) }
      | none => s)
    st

end NodeEditor

namespace SequencerNode

/-- `SequencerNode.connectTrigger`: append the target to `connectedTriggers`
unless already included. -/
def connectTrigger (connectedTriggers : List String) (target : String) :
    List String :=
  if target ∈ connectedTriggers then connectedTriggers
  else connectedTriggers ++ [target]

/-- The `triggerAttackRelease` calls made for one active step cell: one per
entry of `connectedTriggers` exposing the method, in list order. -/
def stepTriggerCalls (connectedTriggers : List String) (hasTAR : String → Bool) :
    List String :=
  connectedTriggers.filter (fun t => hasTAR t)

end SequencerNode

namespace KeyboardNode

/-- `KeyboardNode.connectTrigger`: append the target to `connectedTriggers`
unless already included. -/
def connectTrigger (connectedTriggers : List String) (target : String) :
    List String :=
  if target ∈ connectedTriggers then connectedTriggers
  else connectedTriggers ++ [target]

/-- The `triggerAttack` calls made when the gate goes high: one per entry of
`connectedTriggers` exposing the method, in list order. -/
def gateHighCalls (connectedTriggers : List String) (hasTA : String → Bool) :
    List String :=
  connectedTriggers.filter (fun t => hasTA t)

end KeyboardNode

/-! ### Concrete example units, states and edges -/

/-- A well-behaved connectable parameter (e.g. `filter.frequency`). -/
def freqParam : ParamSpec :=
  { hasConnect := true, isSignal := false, throwsOnConnect := false }

/-- A malformed parameter object whose connect call throws. -/
def badParam : ParamSpec :=
  { hasConnect := true, isSignal := false, throwsOnConnect := true }

def lfoUnit : ToneAudioNode :=
  { hasConnectTrigger := false, triggers := [], params := [], inputPort := none }

def filterUnit : ToneAudioNode :=
  { hasConnectTrigger := false, triggers := [],
    params := [("frequency", freqParam)], inputPort := none }

def seqUnit : ToneAudioNode :=
  { hasConnectTrigger := true, triggers := [], params := [], inputPort := none }

def vcoUnit : ToneAudioNode :=
  { hasConnectTrigger := false, triggers := [],
    params := [("note", freqParam)], inputPort := none }

/-- LFO and filter registered, with a declared range for `filter.frequency`. -/
def cvState : ManagerState :=
  { audioNodes := [("lfo", lfoUnit), ("filter", filterUnit)],
    nodeParams := [("filter", [("frequency", (200, 5000))])],
    conns := [], disposed := [] }

/-- A CV edge from the LFO into `filter.frequency`. -/
def cvEdge : Edge :=
  { id := "e-lfo-filter", source := "lfo", target := "filter",
    sourceHandle := some "lfo-output-cv",
    targetHandle := some "filter-control1-frequency-cv",
    data := some { targetProperty := some "frequency", sourceProperty := some "lfo" } }

/-- Same units as `cvState` but with no declared parameter ranges. -/
def cvStateNoRanges : ManagerState :=
  { audioNodes := [("lfo", lfoUnit), ("filter", filterUnit)],
    nodeParams := [], conns := [], disposed := [] }

/-- Sequencer and VCO registered, with a declared range for `vco.note`. -/
def noteState : ManagerState :=
  { audioNodes := [("seq", seqUnit), ("vco", vcoUnit)],
    nodeParams := [("vco", [("note", (20, 2000))])],
    conns := [], disposed := [] }

/-- A Note edge from the sequencer's note endpoint into `vco.note`. -/
def noteEdge : Edge :=
  { id := "e-seq-vco", source := "seq", target := "vco",
    sourceHandle := some "seq-note-note", targetHandle := some "vco-note-note",
    data := some { targetProperty := some "note", sourceProperty := some "note" } }

/-- A Note edge whose declared source endpoint is the generic output marker. -/
def noteOutputEdge : Edge :=
  { id := "e-noteout", source := "seq", target := "vco",
    sourceHandle := some "seq-output-note", targetHandle := some "vco-note-note",
    data := some { targetProperty := some "note", sourceProperty := some "output" } }

/-- Sequencer and VCO registered, no declared ranges. -/
def noteStateNoRanges : ManagerState :=
  { audioNodes := [("seq", seqUnit), ("vco", vcoUnit)],
    nodeParams := [], conns := [], disposed := [] }

/-- An audio edge from the LFO into the filter. -/
def audioEdge : Edge :=
  { id := "e-lfo-filter-audio", source := "lfo", target := "filter",
    sourceHandle := some "lfo-output-audio",
    targetHandle := some "filter-input-audio",
    data := some { targetProperty := none, sourceProperty := none } }

/-- Only the LFO registered: the filter endpoint is still missing. -/
def c3State : ManagerState :=
  { audioNodes := [("lfo", lfoUnit)], nodeParams := [], conns := [], disposed := [] }

/-- An amp-like unit whose `gain` parameter is malformed and throws. -/
def badTargetUnit : ToneAudioNode :=
  { hasConnectTrigger := false, triggers := [],
    params := [("gain", badParam)], inputPort := none }

/-- LFO, a malformed amp, and the filter all registered, no ranges. -/
def c7State : ManagerState :=
  { audioNodes := [("lfo", lfoUnit), ("amp", badTargetUnit), ("filter", filterUnit)],
    nodeParams := [], conns := [], disposed := [] }

/-- A CV edge whose wiring throws on the malformed `amp.gain`. -/
def badCvEdge : Edge :=
  { id := "e-bad", source := "lfo", target := "amp",
    sourceHandle := some "lfo-output-cv",
    targetHandle := some "amp-control1-gain-cv",
    data := some { targetProperty := some "gain", sourceProperty := some "lfo" } }

def c8Ranges : List (String × Rat × Rat) := [("frequency", (200, 5000))]

def emptyState : ManagerState :=
  { audioNodes := [], nodeParams := [], conns := [], disposed := [] }

def envUnit : ToneAudioNode :=
  { hasConnectTrigger := false, triggers := [], params := [], inputPort := none }

/-- Sequencer and envelope registered, nothing wired yet. -/
def gateState : ManagerState :=
  { audioNodes := [("seq", seqUnit), ("env", envUnit)],
    nodeParams := [], conns := [], disposed := [] }

/-- A Gate edge from the sequencer into the envelope's trigger input. -/
def gateEdge : Edge :=
  { id := "e-gate", source := "seq", target := "env",
    sourceHandle := some "seq-gate-gate", targetHandle := some "env-trigger-gate",
    data := some { targetProperty := some "trigger", sourceProperty := some "gate" } }

/-! ### Association-list lemmas -/

theorem assocGet_nil {α : Type} (k : String) : assocGet ([] : List (String × α)) k = none := rfl

theorem assocGet_cons {α : Type} (a : String) (b : α) (tl : List (String × α)) (k : String) :
    assocGet ((a, b) :: tl) k = if a == k then some b else assocGet tl k := by
  by_cases h : a == k
  · simp [assocGet, List.find?, h]
  · simp only [Bool.not_eq_true] at h
    simp [assocGet, List.find?, h]

theorem assocGet_assocSet_self {α : Type} (m : List (String × α)) (k : String) (v : α) :
    assocGet (assocSet m k v) k = some v := by
  induction m with
  | nil => simp [assocSet, assocGet_cons]
  | cons hd tl ih =>
    obtain ⟨a, b⟩ := hd
    by_cases h : a == k
    · simp [assocSet, h, assocGet_cons]
    · simp only [Bool.not_eq_true] at h
      simp [assocSet, h, assocGet_cons, ih]

theorem assocGet_assocSet_ne {α : Type} (m : List (String × α)) {k k' : String} (v : α)
    (h : k' ≠ k) : assocGet (assocSet m k v) k' = assocGet m k' := by
  have hbeq : (k == k') = false := by
    simp only [beq_eq_false_iff_ne, ne_eq]
    exact fun hk => h hk.symm
  induction m with
  | nil => simp [assocSet, assocGet_cons, hbeq]
  | cons hd tl ih =>
    obtain ⟨a, b⟩ := hd
    by_cases ha : a == k
    · have ha' : a = k := by simpa using ha
      simp [assocSet, ha, assocGet_cons, hbeq, ha']
    · simp only [Bool.not_eq_true] at ha
      simp [assocSet, ha, assocGet_cons, ih]

/-! ### Step invariants of edge resolution -/

/-- The new unit equals the old one with some extra trigger subscriptions. -/
def unitExtends (u u' : ToneAudioNode) : Prop :=
  ∃ ts, u' = { u with triggers := u.triggers ++ ts }

/-- Pointwise extension of registry entries. -/
def optExtends : Option ToneAudioNode → Option ToneAudioNode → Prop
  | none, o' => o' = none
  | some u, o' => ∃ u', o' = some u' ∧ unitExtends u u'

theorem unitExtends_refl (u : ToneAudioNode) : unitExtends u u := ⟨[], by simp⟩

theorem unitExtends_trans {u u' u'' : ToneAudioNode}
    (h1 : unitExtends u u') (h2 : unitExtends u' u'') : unitExtends u u'' := by
  obtain ⟨ts1, rfl⟩ := h1
  obtain ⟨ts2, rfl⟩ := h2
  exact ⟨ts1 ++ ts2, by simp⟩

theorem optExtends_refl (o : Option ToneAudioNode) : optExtends o o := by
  cases o with
  | none => rfl
  | some u => exact ⟨u, rfl, unitExtends_refl u⟩

theorem optExtends_trans {o1 o2 o3 : Option ToneAudioNode}
    (h1 : optExtends o1 o2) (h2 : optExtends o2 o3) : optExtends o1 o3 := by
  cases o1 with
  | none =>
    simp only [optExtends] at h1
    subst h1
    exact h2
  | some u =>
    obtain ⟨u', h2eq, hx⟩ := h1
    subst h2eq
    obtain ⟨u'', h3eq, hy⟩ := h2
    subst h3eq
    exact ⟨u'', rfl, unitExtends_trans hx hy⟩

/-- What a single `connect` call may do to the state: append connections all
tagged with the resolved edge's id, leave parameter tables and disposals
unchanged, and at most extend trigger fan-out lists of registered units. -/
structure ConnectStep (st st' : ManagerState) (i : String) : Prop where
  conns_ext : ∃ δ, st'.conns = st.conns ++ δ ∧ ∀ c ∈ δ, c.edgeId = some i
  nodeParams_eq : st'.nodeParams = st.nodeParams
  disposed_eq : st'.disposed = st.disposed
  nodes_ext : ∀ k, optExtends (assocGet st.audioNodes k) (assocGet st'.audioNodes k)

theorem connectStep_refl (st : ManagerState) (i : String) : ConnectStep st st i :=
  ⟨⟨[], by simp, by simp⟩, rfl, rfl, fun _ => optExtends_refl _⟩

theorem connectStep_append (st : ManagerState) {c : Conn} {i : String}
    (h : c.edgeId = some i) :
    ConnectStep st { st with conns := st.conns ++ [c] } i :=
  ⟨⟨[c], rfl, by simpa using h⟩, rfl, rfl, fun _ => optExtends_refl _⟩

/-- The state carried by a resolution result, whether or not it threw. -/
def resultState : ConnectResult → ManagerState
  | Except.ok (s, _) => s
  | Except.error (s, _) => s

theorem connect_fst_eq (st : ManagerState) (e : Edge) :
    (connect st e).1 = resultState (connectRaw st e) := by
  unfold connect resultState
  cases h : connectRaw st e with
  | ok r => obtain ⟨s, o⟩ := r; rfl
  | error r => obtain ⟨s, m⟩ := r; rfl

theorem connectStep_attempt (p : ParamSpec) (st : ManagerState) {c : Conn} {i : String}
    (h : c.edgeId = some i) :
    ConnectStep st (resultState (attemptInto p st c)) i := by
  unfold attemptInto
  by_cases hp : p.throwsOnConnect = true
  · simp only [hp, if_true]
    exact connectStep_refl st i
  · simp only [Bool.not_eq_true] at hp
    simp only [hp, Bool.false_eq_true, if_false]
    exact connectStep_append st h

theorem connectStep_attemptFallback (p : ParamSpec) (st : ManagerState) {c c2 : Conn}
    {i : String} (h : c.edgeId = some i) (_h2 : c2.edgeId = some i) :
    ConnectStep st (resultState (attemptWithFallback p st c c2)) i := by
  unfold attemptWithFallback attemptInto
  by_cases hp : p.throwsOnConnect = true
  · simp only [hp, if_true]
    exact connectStep_refl st i
  · simp only [Bool.not_eq_true] at hp
    simp only [hp, Bool.false_eq_true, if_false]
    exact connectStep_append st h

theorem connectStep_noteCvCase (st : ManagerState) (e : Edge) (tn : ToneAudioNode)
    (tt tp sp : Option String) :
    ConnectStep st (resultState (noteCvCase st e tn tt tp sp)) e.id := by
  unfold noteCvCase
  repeat' split
  all_goals
    first
      | exact connectStep_refl st e.id
      | exact connectStep_append st rfl
      | exact connectStep_attempt _ st rfl
      | exact connectStep_attemptFallback _ st rfl rfl

theorem connectStep_gateCase {st : ManagerState} {e : Edge} {sn : ToneAudioNode}
    (hs : assocGet st.audioNodes e.source = some sn) :
    ConnectStep st (resultState (gateCase st e sn)) e.id := by
  unfold gateCase
  by_cases hct : sn.hasConnectTrigger = true
  · simp only [hct, if_true]
    show ConnectStep st
      { st with audioNodes := assocSet st.audioNodes e.source (sn.connectTrigger e.target) }
      e.id
    refine ⟨⟨[], by simp, by simp⟩, rfl, rfl, ?_⟩
    intro k
    by_cases hk : k = e.source
    · subst hk
      show optExtends (assocGet st.audioNodes e.source)
        (assocGet (assocSet st.audioNodes e.source (sn.connectTrigger e.target)) e.source)
      rw [hs, assocGet_assocSet_self]
      refine ⟨_, rfl, ?_⟩
      unfold ToneAudioNode.connectTrigger
      by_cases hmem : e.target ∈ sn.triggers
      · exact ⟨[], by simp [hmem]⟩
      · exact ⟨[e.target], by simp [hmem]⟩
    · show optExtends (assocGet st.audioNodes k)
        (assocGet (assocSet st.audioNodes e.source (sn.connectTrigger e.target)) k)
      rw [assocGet_assocSet_ne _ _ hk]
      exact optExtends_refl _
  · simp only [Bool.not_eq_true] at hct
    simp only [hct, Bool.false_eq_true, if_false]
    exact connectStep_refl st e.id

theorem connect_step (st : ManagerState) (e : Edge) :
    ConnectStep st (connect st e).1 e.id := by
  rw [connect_fst_eq]
  unfold connectRaw
  split
  next sn tn hs ht =>
    split
    · exact connectStep_gateCase hs
    · split
      · exact connectStep_noteCvCase st e tn _ _ _
      · split
        · exact connectStep_append st rfl
        · exact connectStep_refl st e.id
  next => exact connectStep_refl st e.id

/-! ### Fold-level lemmas -/

theorem foldConnect_nil (st : ManagerState) : foldConnect st [] = (st, []) := rfl

theorem foldConnect_cons (st : ManagerState) (e : Edge) (rest : List Edge) :
    foldConnect st (e :: rest) =
      ((foldConnect (connect st e).1 rest).1,
       (connect st e).2 :: (foldConnect (connect st e).1 rest).2) := rfl

theorem foldConnect_length (l : List Edge) :
    ∀ st : ManagerState, (foldConnect st l).2.length = l.length := by
  induction l with
  | nil => intro st; rfl
  | cons e rest ih =>
    intro st
    rw [foldConnect_cons]
    simp [ih]

theorem foldConnect_conns_ext (l : List Edge) :
    ∀ st : ManagerState, ∃ δ, (foldConnect st l).1.conns = st.conns ++ δ ∧
      ∀ c ∈ δ, ∃ e ∈ l, c.edgeId = some e.id := by
  induction l with
  | nil => intro st; exact ⟨[], by simp [foldConnect_nil], by simp⟩
  | cons e rest ih =>
    intro st
    obtain ⟨δ1, h1, h1i⟩ := (connect_step st e).conns_ext
    obtain ⟨δ2, h2, h2i⟩ := ih (connect st e).1
    refine ⟨δ1 ++ δ2, ?_, ?_⟩
    · rw [foldConnect_cons]
      simp [h2, h1]
    · intro c hc
      rcases List.mem_append.mp hc with hc1 | hc2
      · exact ⟨e, by simp, h1i c hc1⟩
      · obtain ⟨e', he', hid⟩ := h2i c hc2
        exact ⟨e', by simp [he'], hid⟩

theorem foldConnect_nodeParams (l : List Edge) :
    ∀ st : ManagerState, (foldConnect st l).1.nodeParams = st.nodeParams := by
  induction l with
  | nil => intro st; rfl
  | cons e rest ih =>
    intro st
    rw [foldConnect_cons]
    simpa [ih] using (connect_step st e).nodeParams_eq

theorem foldConnect_disposed (l : List Edge) :
    ∀ st : ManagerState, (foldConnect st l).1.disposed = st.disposed := by
  induction l with
  | nil => intro st; rfl
  | cons e rest ih =>
    intro st
    rw [foldConnect_cons]
    simpa [ih] using (connect_step st e).disposed_eq

theorem foldConnect_nodes_ext (l : List Edge) :
    ∀ (st : ManagerState) (k : String),
      optExtends (assocGet st.audioNodes k) (assocGet (foldConnect st l).1.audioNodes k) := by
  induction l with
  | nil => intro st k; exact optExtends_refl _
  | cons e rest ih =>
    intro st k
    rw [foldConnect_cons]
    exact optExtends_trans ((connect_step st e).nodes_ext k) (ih (connect st e).1 k)

theorem foldConnect_isSome (l : List Edge) (st : ManagerState) (k : String)
    (h : (assocGet st.audioNodes k).isSome) :
    (assocGet (foldConnect st l).1.audioNodes k).isSome := by
  have hext := foldConnect_nodes_ext l st k
  obtain ⟨u, hu⟩ := Option.isSome_iff_exists.mp h
  rw [hu] at hext
  obtain ⟨u', hu', _⟩ := hext
  simp [hu']

theorem foldConnect_countP_of_ne (l : List Edge) (st : ManagerState) (i : String)
    (h : ∀ e ∈ l, e.id ≠ i) :
    (foldConnect st l).1.conns.countP (fun c => c.edgeId == some i) =
      st.conns.countP (fun c => c.edgeId == some i) := by
  obtain ⟨δ, hδ, hδi⟩ := foldConnect_conns_ext l st
  rw [hδ, List.countP_append]
  have hz : δ.countP (fun c => c.edgeId == some i) = 0 := by
    apply List.countP_eq_zero.mpr
    intro c hc
    obtain ⟨e, he, hid⟩ := hδi c hc
    simp [hid, h e he]
  simp [hz]

theorem foldConnect_append (l1 l2 : List Edge) :
    ∀ st : ManagerState,
      (foldConnect st (l1 ++ l2)).1 = (foldConnect (foldConnect st l1).1 l2).1 := by
  induction l1 with
  | nil => intro st; rfl
  | cons e rest ih =>
    intro st
    rw [List.cons_append, foldConnect_cons, foldConnect_cons]
    exact ih (connect st e).1

/-! ### Lemmas about `storeParams` and `registerAudioNode` -/

theorem storeParams_audioNodes (st : ManagerState) (n : String)
    (p : Option (List (String × Rat × Rat))) :
    (storeParams st n p).audioNodes = st.audioNodes := by
  cases p <;> rfl

theorem storeParams_conns (st : ManagerState) (n : String)
    (p : Option (List (String × Rat × Rat))) :
    (storeParams st n p).conns = st.conns := by
  cases p <;> rfl

theorem storeParams_disposed (st : ManagerState) (n : String)
    (p : Option (List (String × Rat × Rat))) :
    (storeParams st n p).disposed = st.disposed := by
  cases p <;> rfl

theorem registerAudioNode_conns (st : ManagerState) (nid : String) (u : ToneAudioNode)
    (edges : List Edge) (ps : Option (List (String × Rat × Rat))) :
    ((registerAudioNode st nid u edges ps).1).conns =
      (foldConnect
        { storeParams st nid ps with
            audioNodes := assocSet (storeParams st nid ps).audioNodes nid u }
        (relevantEdges nid edges)).1.conns ++
      (if nid = "toDestination" then [destinationConn nid] else []) := by
  unfold registerAudioNode
  by_cases h : nid = "toDestination" <;> simp [h]

theorem registerAudioNode_outcomes (st : ManagerState) (nid : String) (u : ToneAudioNode)
    (edges : List Edge) (ps : Option (List (String × Rat × Rat))) :
    (registerAudioNode st nid u edges ps).2 =
      (foldConnect
        { storeParams st nid ps with
            audioNodes := assocSet (storeParams st nid ps).audioNodes nid u }
        (relevantEdges nid edges)).2 := by
  unfold registerAudioNode
  by_cases h : nid = "toDestination" <;> simp [h]

theorem registerAudioNode_nodeParams (st : ManagerState) (nid : String) (u : ToneAudioNode)
    (edges : List Edge) (ps : Option (List (String × Rat × Rat))) :
    ((registerAudioNode st nid u edges ps).1).nodeParams =
      (storeParams st nid ps).nodeParams := by
  unfold registerAudioNode
  by_cases h : nid = "toDestination" <;> simp [h, foldConnect_nodeParams]

theorem registerAudioNode_audioNodes (st : ManagerState) (nid : String) (u : ToneAudioNode)
    (edges : List Edge) (ps : Option (List (String × Rat × Rat))) :
    ((registerAudioNode st nid u edges ps).1).audioNodes =
      (foldConnect
        { storeParams st nid ps with
            audioNodes := assocSet (storeParams st nid ps).audioNodes nid u }
        (relevantEdges nid edges)).1.audioNodes := by
  unfold registerAudioNode
  by_cases h : nid = "toDestination" <;> simp [h]

theorem registerAudioNode_disposed (st : ManagerState) (nid : String) (u : ToneAudioNode)
    (edges : List Edge) (ps : Option (List (String × Rat × Rat))) :
    ((registerAudioNode st nid u edges ps).1).disposed = st.disposed := by
  unfold registerAudioNode
  by_cases h : nid = "toDestination" <;>
    simp [h, foldConnect_disposed, storeParams_disposed]

/-! ### Branch computation lemmas for `connect` -/

theorem connect_skipped {st : ManagerState} {e : Edge}
    (h : assocGet st.audioNodes e.source = none ∨
      assocGet st.audioNodes e.target = none) :
    connect st e = (st, Outcome.skippedMissing) := by
  unfold connect connectRaw
  cases hs : assocGet st.audioNodes e.source with
  | none => rfl
  | some sn =>
    cases ht : assocGet st.audioNodes e.target with
    | none => rfl
    | some tn => rcases h with h1 | h1 <;> simp_all

theorem connect_audio {st : ManagerState} {e : Edge} {sn tn : ToneAudioNode}
    (hs : assocGet st.audioNodes e.source = some sn)
    (ht : assocGet st.audioNodes e.target = some tn)
    (hty : getSignalType e.targetHandle = some "audio") :
    connect st e = ({ st with conns := st.conns ++ [nodeConn e] },
      Outcome.wiredConn (nodeConn e)) := by
  unfold connect connectRaw
  rw [hs, ht]
  simp [hty, installConn]

theorem connect_cv_ranged {st : ManagerState} {e : Edge} {sn tn : ToneAudioNode}
    {p : String} {prm : ParamSpec} {mn mx : Rat}
    (hs : assocGet st.audioNodes e.source = some sn)
    (ht : assocGet st.audioNodes e.target = some tn)
    (hty : getSignalType e.targetHandle = some "cv")
    (hsp : e.sourceProp ≠ some "output")
    (htp : e.targetProp = some p)
    (hpi : p ≠ "input")
    (hprm : assocGet tn.params p = some prm)
    (hc : prm.hasConnect = true)
    (hth : prm.throwsOnConnect = false)
    (hdef : (assocGet st.nodeParams e.target).bind (fun ps => assocGet ps p) =
      some (mn, mx)) :
    connect st e = ({ st with conns := st.conns ++ [paramConn e p (Stage.scaled mn mx)] },
      Outcome.wiredConn (paramConn e p (Stage.scaled mn mx))) := by
  unfold connect connectRaw noteCvCase attemptInto
  rw [hs, ht]
  simp [hty, hsp, htp, hpi, hprm, hc, hth, hdef, installConn]

theorem connect_cv_output_ranged {st : ManagerState} {e : Edge} {sn tn : ToneAudioNode}
    {p : String} {prm : ParamSpec} {mn mx : Rat}
    (hs : assocGet st.audioNodes e.source = some sn)
    (ht : assocGet st.audioNodes e.target = some tn)
    (hty : getSignalType e.targetHandle = some "cv")
    (hsp : e.sourceProp = some "output")
    (htp : e.targetProp = some p)
    (hprm : assocGet tn.params p = some prm)
    (hc : prm.hasConnect = true)
    (hth : prm.throwsOnConnect = false)
    (hdef : (assocGet st.nodeParams e.target).bind (fun ps => assocGet ps p) =
      some (mn, mx)) :
    connect st e = ({ st with conns := st.conns ++ [paramConn e p (Stage.scaled mn mx)] },
      Outcome.wiredConn (paramConn e p (Stage.scaled mn mx))) := by
  unfold connect connectRaw noteCvCase attemptInto
  rw [hs, ht]
  simp [hty, hsp, htp, hprm, hc, hth, hdef, installConn]

theorem connect_cv_noRange {st : ManagerState} {e : Edge} {sn tn : ToneAudioNode}
    {p : String} {prm : ParamSpec}
    (hs : assocGet st.audioNodes e.source = some sn)
    (ht : assocGet st.audioNodes e.target = some tn)
    (hty : getSignalType e.targetHandle = some "cv")
    (hsp : e.sourceProp ≠ some "output")
    (htp : e.targetProp = some p)
    (hpi : p ≠ "input")
    (hprm : assocGet tn.params p = some prm)
    (hc : prm.hasConnect = true)
    (hth : prm.throwsOnConnect = false)
    (hdef : (assocGet st.nodeParams e.target).bind (fun ps => assocGet ps p) = none) :
    connect st e = ({ st with conns := st.conns ++ [paramConn e p Stage.direct] },
      Outcome.wiredConn (paramConn e p Stage.direct)) := by
  unfold connect connectRaw noteCvCase attemptInto
  rw [hs, ht]
  simp [hty, hsp, htp, hpi, hprm, hc, hth, hdef, installConn]

theorem connect_cv_output_noRange {st : ManagerState} {e : Edge} {sn tn : ToneAudioNode}
    {p : String} {prm : ParamSpec}
    (hs : assocGet st.audioNodes e.source = some sn)
    (ht : assocGet st.audioNodes e.target = some tn)
    (hty : getSignalType e.targetHandle = some "cv")
    (hsp : e.sourceProp = some "output")
    (htp : e.targetProp = some p)
    (hprm : assocGet tn.params p = some prm)
    (hc : prm.hasConnect = true)
    (hth : prm.throwsOnConnect = false)
    (hdef : (assocGet st.nodeParams e.target).bind (fun ps => assocGet ps p) = none) :
    connect st e = ({ st with conns := st.conns ++ [paramConn e p Stage.direct] },
      Outcome.wiredConn (paramConn e p Stage.direct)) := by
  unfold connect connectRaw noteCvCase attemptInto
  rw [hs, ht]
  simp [hty, hsp, htp, hprm, hc, hth, hdef, installConn]

theorem connect_note_direct {st : ManagerState} {e : Edge} {sn tn : ToneAudioNode}
    {p : String} {prm : ParamSpec}
    (hs : assocGet st.audioNodes e.source = some sn)
    (ht : assocGet st.audioNodes e.target = some tn)
    (hty : getSignalType e.targetHandle = some "note")
    (hsp : e.sourceProp ≠ some "output")
    (htp : e.targetProp = some p)
    (hpi : p ≠ "input")
    (hprm : assocGet tn.params p = some prm)
    (hc : prm.hasConnect = true)
    (hth : prm.throwsOnConnect = false) :
    connect st e = ({ st with conns := st.conns ++ [paramConn e p Stage.direct] },
      Outcome.wiredConn (paramConn e p Stage.direct)) := by
  unfold connect connectRaw noteCvCase attemptInto
  rw [hs, ht]
  simp [hty, hsp, htp, hpi, hprm, hc, hth, installConn]

theorem connect_note_output_warn {st : ManagerState} {e : Edge} {sn tn : ToneAudioNode}
    (hs : assocGet st.audioNodes e.source = some sn)
    (ht : assocGet st.audioNodes e.target = some tn)
    (hty : getSignalType e.targetHandle = some "note")
    (hsp : e.sourceProp = some "output") :
    connect st e = (st, Outcome.warned "Note signal cannot connect to output property") := by
  unfold connect connectRaw noteCvCase
  rw [hs, ht]
  simp [hty, hsp]

/-! ### Lemmas about trigger subscription -/

theorem connectTrigger_iterate_fixed {t : String} (n : ℕ) :
    ∀ l : List String, t ∈ l →
      (fun l => SequencerNode.connectTrigger l t)^[n] l = l := by
  induction n with
  | zero => intro l _; rfl
  | succ n ih =>
    intro l h
    rw [Function.iterate_succ_apply]
    have h1 : SequencerNode.connectTrigger l t = l := by
      simp [SequencerNode.connectTrigger, h]
    rw [h1]
    exact ih l h

theorem connectTrigger_iterate_of_not_mem {l : List String} {t : String} {N : ℕ}
    (hN : 1 ≤ N) (h : t ∉ l) :
    (fun l => SequencerNode.connectTrigger l t)^[N] l = l ++ [t] := by
  obtain ⟨n, rfl⟩ : ∃ n, N = n + 1 := ⟨N - 1, by omega⟩
  rw [Function.iterate_succ_apply]
  have h1 : SequencerNode.connectTrigger l t = l ++ [t] := by
    simp [SequencerNode.connectTrigger, h]
  rw [h1]
  exact connectTrigger_iterate_fixed n (l ++ [t]) (by simp)

theorem count_after_subscribe {l : List String} {t : String} {N : ℕ}
    (q : String → Bool) (hN : 1 ≤ N) (hmem : t ∉ l) (hq : q t = true) :
    ((fun l => SequencerNode.connectTrigger l t)^[N] l).count t = 1 ∧
      (SequencerNode.stepTriggerCalls
        ((fun l => SequencerNode.connectTrigger l t)^[N] l) q).count t = 1 := by
  rw [connectTrigger_iterate_of_not_mem hN hmem]
  have hcount : l.count t = 0 := List.count_eq_zero.mpr hmem
  constructor
  · simp [hcount]
  · have hfc : (l.filter q).count t = 0 :=
      List.count_eq_zero.mpr (fun hx => hmem (List.mem_of_mem_filter hx))
    simp [SequencerNode.stepTriggerCalls, List.filter_append, hq, hfc]

/-- C1: for both units exposing `connectTrigger` (the sequencer and the
keyboard), subscribing the same target any number N ≥ 1 of times leaves
exactly one occurrence of that target in the `connectedTriggers` fan-out
list, so one discrete event (a sequencer step, a keyboard gate edge) invokes
that target's trigger method exactly once. -/
theorem gateSubscriptionIdempotent
    (l : List String) (t : String) (N : ℕ) (hasTAR hasTA : String → Bool)
    (hN : 1 ≤ N) (hmem : t ∉ l) (hT : hasTAR t = true) (hA : hasTA t = true) :
    (((fun l => SequencerNode.connectTrigger l t)^[N] l).count t = 1 ∧
      (SequencerNode.stepTriggerCalls
        ((fun l => SequencerNode.connectTrigger l t)^[N] l) hasTAR).count t = 1) ∧
    (((fun l => KeyboardNode.connectTrigger l t)^[N] l).count t = 1 ∧
      (KeyboardNode.gateHighCalls
        ((fun l => KeyboardNode.connectTrigger l t)^[N] l) hasTA).count t = 1) :=
  ⟨count_after_subscribe hasTAR hN hmem hT, count_after_subscribe hasTA hN hmem hA⟩

/-- C1 witness: three subscriptions of the same envelope target from an empty
fan-out list leave one occurrence and one trigger invocation per event. -/
theorem gateSubscriptionIdempotentWitness :
    (((fun l => SequencerNode.connectTrigger l "env")^[3] []).count "env" = 1 ∧
      (SequencerNode.stepTriggerCalls
        ((fun l => SequencerNode.connectTrigger l "env")^[3] [])
        (fun s => s == "env")).count "env" = 1) ∧
    (((fun l => KeyboardNode.connectTrigger l "env")^[3] []).count "env" = 1 ∧
      (KeyboardNode.gateHighCalls
        ((fun l => KeyboardNode.connectTrigger l "env")^[3] [])
        (fun s => s == "env")).count "env" = 1) :=
  gateSubscriptionIdempotent [] "env" 3 (fun s => s == "env") (fun s => s == "env")
    (by decide) (by simp) (by decide) (by decide)

/-! ### Claim theorems -/

/-- C2: for every CV edge whose target parameter has a declared (min,max)
range in the registry's parameter table, `connect` installs a Range Scaler
stage `source → Scale(min,max) → parameter` — on both the generic source path
and the output-marked source path — and the installed linear mapping sends a
normalized input of 0 to min and of 1 to max. -/
theorem cvRangeScalerInstalled :
    (∀ (st : ManagerState) (e : Edge) (sn tn : ToneAudioNode) (p : String)
        (prm : ParamSpec) (mn mx : Rat),
      assocGet st.audioNodes e.source = some sn →
      assocGet st.audioNodes e.target = some tn →
      getSignalType e.targetHandle = some "cv" →
      e.sourceProp ≠ some "output" →
      e.targetProp = some p → p ≠ "input" →
      assocGet tn.params p = some prm →
      prm.hasConnect = true → prm.throwsOnConnect = false →
      (assocGet st.nodeParams e.target).bind (fun ps => assocGet ps p) = some (mn, mx) →
      connect st e =
        ({ st with conns := st.conns ++ [paramConn e p (Stage.scaled mn mx)] },
         Outcome.wiredConn (paramConn e p (Stage.scaled mn mx)))) ∧
    (∀ (st : ManagerState) (e : Edge) (sn tn : ToneAudioNode) (p : String)
        (prm : ParamSpec) (mn mx : Rat),
      assocGet st.audioNodes e.source = some sn →
      assocGet st.audioNodes e.target = some tn →
      getSignalType e.targetHandle = some "cv" →
      e.sourceProp = some "output" →
      e.targetProp = some p →
      assocGet tn.params p = some prm →
      prm.hasConnect = true → prm.throwsOnConnect = false →
      (assocGet st.nodeParams e.target).bind (fun ps => assocGet ps p) = some (mn, mx) →
      connect st e =
        ({ st with conns := st.conns ++ [paramConn e p (Stage.scaled mn mx)] },
         Outcome.wiredConn (paramConn e p (Stage.scaled mn mx)))) ∧
    (∀ mn mx : Rat,
      Stage.apply (Stage.scaled mn mx) 0 = mn ∧ Stage.apply (Stage.scaled mn mx) 1 = mx) :=
  ⟨fun _ _ _ _ _ _ _ _ hs ht hty hsp htp hpi hprm hc hth hdef =>
      connect_cv_ranged hs ht hty hsp htp hpi hprm hc hth hdef,
   fun _ _ _ _ _ _ _ _ hs ht hty hsp htp hprm hc hth hdef =>
      connect_cv_output_ranged hs ht hty hsp htp hprm hc hth hdef,
   fun mn mx => ⟨by simp only [Stage.apply]; ring, by simp only [Stage.apply]; ring⟩⟩

/-- C2 witness: an LFO driving `filter.frequency` with declared range
[200, 5000] yields a scaled connection, and the scaler maps 0 ↦ 200 and
1 ↦ 5000. -/
theorem cvRangeScalerInstalledWitness :
    connect cvState cvEdge =
      ({ cvState with conns := cvState.conns ++
          [paramConn cvEdge "frequency" (Stage.scaled 200 5000)] },
       Outcome.wiredConn (paramConn cvEdge "frequency" (Stage.scaled 200 5000))) ∧
    Stage.apply (Stage.scaled 200 5000) 0 = 200 ∧
    Stage.apply (Stage.scaled 200 5000) 1 = 5000 :=
  ⟨cvRangeScalerInstalled.1 cvState cvEdge lfoUnit filterUnit "frequency" freqParam
      200 5000 rfl rfl rfl (by decide) rfl (by decide) rfl rfl rfl rfl,
   (cvRangeScalerInstalled.2.2 200 5000).1,
   (cvRangeScalerInstalled.2.2 200 5000).2⟩

/-- C5: for every CV edge whose target parameter has no declared range in the
registry's parameter table, the source is connected directly to the target
parameter with no Scaler stage — on both the generic source path and the
output-marked source path — and a direct connection's output equals its input
for every sample value. -/
theorem cvNoRangeDirectPassthrough :
    (∀ (st : ManagerState) (e : Edge) (sn tn : ToneAudioNode) (p : String)
        (prm : ParamSpec),
      assocGet st.audioNodes e.source = some sn →
      assocGet st.audioNodes e.target = some tn →
      getSignalType e.targetHandle = some "cv" →
      e.sourceProp ≠ some "output" →
      e.targetProp = some p → p ≠ "input" →
      assocGet tn.params p = some prm →
      prm.hasConnect = true → prm.throwsOnConnect = false →
      (assocGet st.nodeParams e.target).bind (fun ps => assocGet ps p) = none →
      connect st e =
        ({ st with conns := st.conns ++ [paramConn e p Stage.direct] },
         Outcome.wiredConn (paramConn e p Stage.direct))) ∧
    (∀ (st : ManagerState) (e : Edge) (sn tn : ToneAudioNode) (p : String)
        (prm : ParamSpec),
      assocGet st.audioNodes e.source = some sn →
      assocGet st.audioNodes e.target = some tn →
      getSignalType e.targetHandle = some "cv" →
      e.sourceProp = some "output" →
      e.targetProp = some p →
      assocGet tn.params p = some prm →
      prm.hasConnect = true → prm.throwsOnConnect = false →
      (assocGet st.nodeParams e.target).bind (fun ps => assocGet ps p) = none →
      connect st e =
        ({ st with conns := st.conns ++ [paramConn e p Stage.direct] },
         Outcome.wiredConn (paramConn e p Stage.direct))) ∧
    (∀ x : Rat, Stage.apply Stage.direct x = x) :=
  ⟨fun _ _ _ _ _ _ hs ht hty hsp htp hpi hprm hc hth hdef =>
      connect_cv_noRange hs ht hty hsp htp hpi hprm hc hth hdef,
   fun _ _ _ _ _ _ hs ht hty hsp htp hprm hc hth hdef =>
      connect_cv_output_noRange hs ht hty hsp htp hprm hc hth hdef,
   fun _ => rfl⟩

/-- C5 witness: with no declared ranges, the same LFO → `filter.frequency`
CV edge wires a direct (identity) connection, e.g. at sample value 7/2. -/
theorem cvNoRangeDirectPassthroughWitness :
    connect cvStateNoRanges cvEdge =
      ({ cvStateNoRanges with conns := cvStateNoRanges.conns ++
          [paramConn cvEdge "frequency" Stage.direct] },
       Outcome.wiredConn (paramConn cvEdge "frequency" Stage.direct)) ∧
    Stage.apply Stage.direct (7 / 2) = 7 / 2 :=
  ⟨cvNoRangeDirectPassthrough.1 cvStateNoRanges cvEdge lfoUnit filterUnit "frequency"
      freqParam rfl rfl rfl (by decide) rfl (by decide) rfl rfl rfl rfl,
   cvNoRangeDirectPassthrough.2.2 (7 / 2)⟩

/-- C6: for every Note-tagged edge with a non-output source endpoint, the
source is connected directly into the named target parameter with no Range
Scaler, regardless of any declared range for that parameter (the state's
parameter table is arbitrary): Note connections are never rescaled. -/
theorem noteEdgeNeverRescaled (st : ManagerState) (e : Edge) (sn tn : ToneAudioNode)
    (p : String) (prm : ParamSpec)
    (hs : assocGet st.audioNodes e.source = some sn)
    (ht : assocGet st.audioNodes e.target = some tn)
    (hty : getSignalType e.targetHandle = some "note")
    (hsp : e.sourceProp ≠ some "output")
    (htp : e.targetProp = some p)
    (hpi : p ≠ "input")
    (hprm : assocGet tn.params p = some prm)
    (hc : prm.hasConnect = true)
    (hth : prm.throwsOnConnect = false) :
    connect st e =
      ({ st with conns := st.conns ++ [paramConn e p Stage.direct] },
       Outcome.wiredConn (paramConn e p Stage.direct)) :=
  connect_note_direct hs ht hty hsp htp hpi hprm hc hth

/-- C6 witness: a sequencer Note edge into `vco.note` connects directly even
though `vco.note` has the declared range [20, 2000]. -/
theorem noteEdgeNeverRescaledWitness :
    connect noteState noteEdge =
      ({ noteState with conns := noteState.conns ++
          [paramConn noteEdge "note" Stage.direct] },
       Outcome.wiredConn (paramConn noteEdge "note" Stage.direct)) :=
  noteEdgeNeverRescaled noteState noteEdge seqUnit vcoUnit "note" freqParam
    rfl rfl rfl (by decide) rfl (by decide) rfl rfl rfl

/-- C4 counterexample: for a Note-tagged edge whose declared source endpoint
is the generic output marker (sequencer → `vco.note`, both registered),
`connect` installs no connection at all — it logs "Note signal cannot connect
to output property" and leaves the state unchanged — so the claimed
degradation to a direct continuous-signal connection does not happen. -/
theorem noteOutputEdgeInstallsNothing :
    connect noteStateNoRanges noteOutputEdge =
      (noteStateNoRanges, Outcome.warned "Note signal cannot connect to output property") ∧
    (connect noteStateNoRanges noteOutputEdge).1.conns = [] := by
  constructor
  · rfl
  · rfl

/-- C4 (amended): for every Note-tagged edge whose declared source endpoint
name is the generic "output" marker, `connect` installs neither a continuous
connection nor an event subscription: it warns "Note signal cannot connect to
output property" and returns with the state unchanged (only CV-tagged edges
take the output-source continuous path). -/
theorem noteOutputEdgeWarnsAndSkips (st : ManagerState) (e : Edge)
    (sn tn : ToneAudioNode)
    (hs : assocGet st.audioNodes e.source = some sn)
    (ht : assocGet st.audioNodes e.target = some tn)
    (hty : getSignalType e.targetHandle = some "note")
    (hsp : e.sourceProp = some "output") :
    connect st e = (st, Outcome.warned "Note signal cannot connect to output property") :=
  connect_note_output_warn hs ht hty hsp

/-- C4 witness: the amended behaviour at the concrete sequencer → VCO edge. -/
theorem noteOutputEdgeWarnsAndSkipsWitness :
    connect noteStateNoRanges noteOutputEdge =
      (noteStateNoRanges, Outcome.warned "Note signal cannot connect to output property") :=
  noteOutputEdgeWarnsAndSkips noteStateNoRanges noteOutputEdge seqUnit vcoUnit
    rfl rfl rfl rfl

/-- C3: resolving an edge with an unregistered endpoint produces no error and
no connection (the edge is skipped with the state unchanged); registration
re-resolves every edge whose source or target equals the registered node id;
and once the missing target registers, the formerly deferred edge (here an
audio edge occurring once in the edge store, with no connection yet) resolves
into exactly one live connection. -/
theorem deferredEdgeRetryOnRegister :
    (∀ (st : ManagerState) (e : Edge),
      (assocGet st.audioNodes e.source = none ∨
        assocGet st.audioNodes e.target = none) →
      connect st e = (st, Outcome.skippedMissing)) ∧
    (∀ (nid : String) (edges : List Edge) (e : Edge),
      e ∈ edges → (e.source = nid ∨ e.target = nid) →
      e ∈ relevantEdges nid edges) ∧
    (∀ (st : ManagerState) (nid : String) (u sn : ToneAudioNode)
        (l1 l2 : List Edge) (e : Edge) (ps : Option (List (String × Rat × Rat))),
      e.target = nid → e.source ≠ nid →
      assocGet st.audioNodes e.source = some sn →
      assocGet st.audioNodes nid = none →
      getSignalType e.targetHandle = some "audio" →
      (∀ e1 ∈ l1, e1.id ≠ e.id) → (∀ e2 ∈ l2, e2.id ≠ e.id) →
      st.conns.countP (fun c => c.edgeId == some e.id) = 0 →
      ((registerAudioNode st nid u (l1 ++ e :: l2) ps).1).conns.countP
        (fun c => c.edgeId == some e.id) = 1) := by
  refine ⟨fun st e h => connect_skipped h, ?_, ?_⟩
  · intro nid edges e he hcond
    apply List.mem_filter.mpr
    refine ⟨he, ?_⟩
    rcases hcond with h | h <;> simp [h]
  · intro st nid u sn l1 l2 e ps htgt hsrc hs hnone hty hl1 hl2 hcnt
    obtain ⟨stB, hstB⟩ : ∃ stB, stB =
        { storeParams st nid ps with
            audioNodes := assocSet (storeParams st nid ps).audioNodes nid u } :=
      ⟨_, rfl⟩
    have hbaseS : assocGet stB.audioNodes e.source = some sn := by
      rw [hstB]
      show assocGet (assocSet (storeParams st nid ps).audioNodes nid u) e.source = some sn
      rw [assocGet_assocSet_ne _ _ hsrc, storeParams_audioNodes]
      exact hs
    have hbaseN : assocGet stB.audioNodes nid = some u := by
      rw [hstB]
      exact assocGet_assocSet_self _ _ _
    have hbaseC : stB.conns = st.conns := by
      rw [hstB]
      exact storeParams_conns st nid ps
    have hrel : relevantEdges nid (l1 ++ e :: l2) =
        relevantEdges nid l1 ++ e :: relevantEdges nid l2 := by
      unfold relevantEdges
      rw [List.filter_append, List.filter_cons]
      simp [htgt]
    rw [registerAudioNode_conns, ← hstB, hrel, List.countP_append]
    have hdest : (if nid = "toDestination" then [destinationConn nid] else []).countP
        (fun c => c.edgeId == some e.id) = 0 := by
      by_cases h : nid = "toDestination" <;> simp [h, destinationConn]
    rw [hdest, Nat.add_zero]
    have hmem1 : ∀ e1 ∈ relevantEdges nid l1, e1.id ≠ e.id := by
      intro e1 he1
      exact hl1 e1 (List.mem_of_mem_filter he1)
    have hmem2 : ∀ e2 ∈ relevantEdges nid l2, e2.id ≠ e.id := by
      intro e2 he2
      exact hl2 e2 (List.mem_of_mem_filter he2)
    obtain ⟨stA, hstA⟩ : ∃ stA, stA = (foldConnect stB (relevantEdges nid l1)).1 :=
      ⟨_, rfl⟩
    have hcA : stA.conns.countP (fun c => c.edgeId == some e.id) = 0 := by
      rw [hstA, foldConnect_countP_of_ne _ stB _ hmem1, hbaseC]
      exact hcnt
    have hsA : (assocGet stA.audioNodes e.source).isSome := by
      rw [hstA]
      exact foldConnect_isSome _ stB _ (by simp [hbaseS])
    have hnA : (assocGet stA.audioNodes nid).isSome := by
      rw [hstA]
      exact foldConnect_isSome _ stB _ (by simp [hbaseN])
    obtain ⟨snA, hsnA⟩ := Option.isSome_iff_exists.mp hsA
    obtain ⟨uA, huA⟩ := Option.isSome_iff_exists.mp hnA
    have htA : assocGet stA.audioNodes e.target = some uA := by
      rw [htgt]
      exact huA
    have hconnA := connect_audio hsnA htA hty
    have hcB : (connect stA e).1.conns.countP (fun c => c.edgeId == some e.id) = 1 := by
      rw [hconnA]
      simp [List.countP_append, hcA, nodeConn]
    have hsplit : (foldConnect stB (relevantEdges nid l1 ++ e :: relevantEdges nid l2)).1 =
        (foldConnect (connect stA e).1 (relevantEdges nid l2)).1 := by
      rw [foldConnect_append, ← hstA, foldConnect_cons]
    rw [hsplit, foldConnect_countP_of_ne _ _ _ hmem2]
    exact hcB

/-- C3 witness: with the LFO registered and the filter missing, the CV/audio
edge is skipped silently; registering the filter with that edge in the store
resolves it into exactly one live connection. -/
theorem deferredEdgeRetryOnRegisterWitness :
    connect c3State audioEdge = (c3State, Outcome.skippedMissing) ∧
    audioEdge ∈ relevantEdges "filter" [audioEdge] ∧
    ((registerAudioNode c3State "filter" filterUnit [audioEdge] none).1).conns.countP
      (fun c => c.edgeId == some audioEdge.id) = 1 :=
  ⟨deferredEdgeRetryOnRegister.1 c3State audioEdge (Or.inr rfl),
   deferredEdgeRetryOnRegister.2.1 "filter" [audioEdge] audioEdge (by simp) (Or.inr rfl),
   deferredEdgeRetryOnRegister.2.2 c3State "filter" filterUnit lfoUnit [] [] audioEdge none
     rfl (by decide) rfl rfl rfl (by simp) (by simp) rfl⟩

/-- C7: an exception thrown while wiring one edge is caught inside that
edge's resolution — `connect` turns any thrown error into a logged outcome
with no propagation — and `registerAudioNode` produces one resolution outcome
for every relevant edge, so a failure on one edge never aborts resolution of
its siblings. -/
theorem wiringExceptionCaughtPerEdge :
    (∀ (st : ManagerState) (e : Edge) (st' : ManagerState) (msg : String),
      connectRaw st e = Except.error (st', msg) →
      connect st e = (st', Outcome.errorLogged msg)) ∧
    (∀ (st : ManagerState) (nid : String) (u : ToneAudioNode) (edges : List Edge)
        (ps : Option (List (String × Rat × Rat))),
      (registerAudioNode st nid u edges ps).2.length =
        (relevantEdges nid edges).length) := by
  constructor
  · intro st e st' msg h
    unfold connect
    rw [h]
  · intro st nid u edges ps
    rw [registerAudioNode_outcomes]
    exact foldConnect_length _ _

/-- C7 witness: wiring the malformed `amp.gain` edge throws, is caught and
logged; re-registering the LFO with that edge followed by a healthy edge
still yields one outcome per edge, and the healthy sibling is wired. -/
theorem wiringExceptionCaughtPerEdgeWitness :
    connect c7State badCvEdge =
      (c7State, Outcome.errorLogged "Error connecting audio nodes") ∧
    (registerAudioNode c7State "lfo" lfoUnit [badCvEdge, cvEdge] none).2.length =
      (relevantEdges "lfo" [badCvEdge, cvEdge]).length ∧
    (registerAudioNode c7State "lfo" lfoUnit [badCvEdge, cvEdge] none).2 =
      [Outcome.errorLogged "Error connecting audio nodes",
       Outcome.wiredConn (paramConn cvEdge "frequency" Stage.direct)] :=
  ⟨wiringExceptionCaughtPerEdge.1 c7State badCvEdge c7State
      "Error connecting audio nodes" rfl,
   wiringExceptionCaughtPerEdge.2 c7State "lfo" lfoUnit [badCvEdge, cvEdge] none,
   rfl⟩

/-- C8 counterexample: register "filter" with a declared range, then register
it again with no parameterRanges argument: the old table is retained rather
than cleared, so the node does not end up with "no declared ranges". -/
theorem paramRangesRetainedCounterexample :
    assocGet
      ((registerAudioNode
        ((registerAudioNode emptyState "filter" filterUnit [] (some c8Ranges)).1)
        "filter" filterUnit [] none).1).nodeParams "filter" = some c8Ranges := by
  rfl

/-- C8 (amended): when a parameterRanges argument is supplied, registration
replaces the stored table for that node wholesale (not merged); when the
argument is omitted, the previously stored parameter-table map is retained
unchanged, so subsequent CV edges keep using the old declared ranges. -/
theorem paramRangesReplaceOrRetain :
    (∀ (st : ManagerState) (nid : String) (u : ToneAudioNode) (edges : List Edge)
        (ps : List (String × Rat × Rat)),
      assocGet ((registerAudioNode st nid u edges (some ps)).1).nodeParams nid = some ps) ∧
    (∀ (st : ManagerState) (nid : String) (u : ToneAudioNode) (edges : List Edge),
      ((registerAudioNode st nid u edges none).1).nodeParams = st.nodeParams) := by
  constructor
  · intro st nid u edges ps
    rw [registerAudioNode_nodeParams]
    exact assocGet_assocSet_self _ _ _
  · intro st nid u edges
    rw [registerAudioNode_nodeParams]
    rfl

/-- C9 counterexample: wire the Gate edge (sequencer → envelope), then delete
that edge: the envelope is still present in the sequencer's trigger fan-out
list, so deleting the edge does not remove its live Gate effect. -/
theorem edgeDeleteKeepsFanout :
    (assocGet
      (NodeEditor.onEdgesDelete (connect gateState gateEdge).1 [gateEdge]).audioNodes
      "seq").map ToneAudioNode.triggers = some ["env"] := by
  rfl

/-- C9 (amended): deleting an edge calls `disconnect()` on the edge's source
unit, which removes every continuous connection originating at that source
(including the deleted edge's own), while the registry — and with it every
trigger fan-out list — is left unchanged: a Gate/Note target stays
subscribed. -/
theorem edgeDeleteDisconnectsSourceOnly (st : ManagerState) (e : Edge)
    (sn : ToneAudioNode) (hs : assocGet st.audioNodes e.source = some sn) :
    NodeEditor.onEdgesDelete st [e] =
      { st with conns := st.conns.filter (fun c => !(c.source == e.source)) } ∧
    (NodeEditor.onEdgesDelete st [e]).audioNodes = st.audioNodes := by
  have h : NodeEditor.onEdgesDelete st [e] =
      { st with conns := st.conns.filter (fun c => !(c.source == e.source)) } := by
    unfold NodeEditor.onEdgesDelete
    simp [hs]
  exact ⟨h, by rw [h]⟩

/-- The sequencer/envelope state after the Gate edge has been wired. -/
def gateStateWired : ManagerState := (connect gateState gateEdge).1

/-- C9 witness: the amended behaviour at the wired sequencer/envelope state. -/
theorem edgeDeleteDisconnectsSourceOnlyWitness :
    NodeEditor.onEdgesDelete gateStateWired [gateEdge] =
      { gateStateWired with conns :=
          gateStateWired.conns.filter (fun c => !(c.source == gateEdge.source)) } ∧
    (NodeEditor.onEdgesDelete gateStateWired [gateEdge]).audioNodes =
      gateStateWired.audioNodes :=
  edgeDeleteDisconnectsSourceOnly gateStateWired gateEdge
    (seqUnit.connectTrigger "env") rfl

/-- C10: re-registering a unit under an existing node id replaces the map
entry (the stored unit is the newly supplied one, at most extended by gate
subscriptions made during re-resolution) and performs no disconnect and no
dispose on the previously registered unit: the connection list is only
appended to, and the disposal record is unchanged. -/
theorem reRegisterPreservesConnections (st : ManagerState) (nid : String)
    (u : ToneAudioNode) (edges : List Edge)
    (ps : Option (List (String × Rat × Rat))) :
    (∃ δ, ((registerAudioNode st nid u edges ps).1).conns = st.conns ++ δ) ∧
    ((registerAudioNode st nid u edges ps).1).disposed = st.disposed ∧
    (∃ u', assocGet ((registerAudioNode st nid u edges ps).1).audioNodes nid = some u' ∧
      unitExtends u u') := by
  obtain ⟨stB, hstB⟩ : ∃ stB, stB =
      { storeParams st nid ps with
          audioNodes := assocSet (storeParams st nid ps).audioNodes nid u } :=
    ⟨_, rfl⟩
  have hbaseC : stB.conns = st.conns := by
    rw [hstB]
    exact storeParams_conns st nid ps
  have hbaseN : assocGet stB.audioNodes nid = some u := by
    rw [hstB]
    exact assocGet_assocSet_self _ _ _
  refine ⟨?_, registerAudioNode_disposed st nid u edges ps, ?_⟩
  · rw [registerAudioNode_conns, ← hstB]
    obtain ⟨δ, hδ, _⟩ := foldConnect_conns_ext (relevantEdges nid edges) stB
    rw [hδ, hbaseC, List.append_assoc]
    exact ⟨_, rfl⟩
  · rw [registerAudioNode_audioNodes, ← hstB]
    have hext := foldConnect_nodes_ext (relevantEdges nid edges) stB nid
    rw [hbaseN] at hext
    exact hext

end NodeModular
